import Mathlib

/-!
Shallow embedding of the geomedian reduction engine of this repository
(`src/xr_geomedian.py`): the stack normalizer `reshape_for_geomedian` and the
reducer entry point `xr_geomedian`, together with the slices of the external
xarray / dask / numpy surface the two functions touch.

Modelling conventions:
* arrays are represented at the shape / chunk-structure / metadata level; the
  numeric content is consumed only by the external solver
  `hdstats.nangeomedian_pcm`, which is not part of this repository and is
  modelled as a function parameter `gm : NpArray → NpArray`;
* Python `ValueError` / `NotImplementedError` / `NameError` / `KeyError`
  raises are modelled as `Except` errors; each distinct raise site of the
  source gets its own `PyError` constructor (the source messages are recorded
  in comments next to the constructors);
* Python dicts are insertion-ordered association lists (`dictInsert`
  replaces in place or appends, exactly like `d[k] = v`; `dictUpdate` is
  `d.update(src)`);
* Python `set(...)` is used in the source only for its cardinality and sole
  member; `pyset` computes a duplicate-free list with the same members;
* the module's import block (lines 1-6 of the source) binds
  `nangeomedian_pcm`, `dask`, `xr` and `da` but never `np`; evaluating the
  expression `np.nan` on line 91 therefore raises `NameError`, which the
  embedding reflects faithfully;
* the source never writes to its input objects: the three in-place updates it
  performs (`xx.attrs.update` on the result of `to_array`/`transpose`,
  `data[set_nan, :] = ...` on the solver output, `dst.attrs.update` on the
  bands of the freshly built output dataset) all target objects created
  during the call, so value semantics is a faithful embedding; the inputs are
  carried through to the result record unchanged.
-/

/-- A coordinate / attribute value: the source only ever moves these around
and compares them, so an integer-or-string universe suffices. -/
inductive CVal
  | i : Int → CVal
  | s : String → CVal
deriving DecidableEq, Repr

abbrev Attrs := List (String × CVal)

abbrev Coords := List (String × List CVal)

/-- An eagerly materialized numeric array (numpy), at shape level. -/
structure NpArray where
  shape : List Nat
deriving DecidableEq, Repr

/-- A chunked / deferred array (dask): shape plus the per-axis chunk lists. -/
structure DaArray where
  shape : List Nat
  chunks : List (List Nat)
deriving DecidableEq, Repr

/-- The data payload of an array: either materialized or dask-backed. -/
inductive ArrData
  | eager : NpArray → ArrData
  | dask : DaArray → ArrData
deriving DecidableEq, Repr

def ArrData.shape : ArrData → List Nat
  | .eager a => a.shape
  | .dask a => a.shape

def ArrData.ndim (a : ArrData) : Nat := a.shape.length

def ArrData.isDask : ArrData → Bool
  | .eager _ => false
  | .dask _ => true

/-- A labeled array (xarray DataArray): dimension names, coordinates,
attributes, data. -/
structure XDataArray where
  dims : List String
  coords : Coords
  attrs : Attrs
  data : ArrData
deriving DecidableEq, Repr

/-- One band (data variable) of a labeled collection: its dimension names,
sizes, optional nodata sentinel (`getattr(v, 'nodata', None)`) and
attributes.  Band data is materialized (the repository's dask path is only
reachable through raw arrays and pre-stacked DataArrays in this embedding). -/
structure XBand where
  dims : List String
  shape : List Nat
  nodata : Option CVal
  attrs : Attrs
deriving DecidableEq, Repr

/-- A labeled collection (xarray Dataset): insertion-ordered band mapping,
coordinates, attributes. -/
structure XDataset where
  bands : List (String × XBand)
  coords : Coords
  attrs : Attrs
deriving DecidableEq, Repr

/-- The optional `where` argument: a boolean validity mask, carried at shape
level (its values are never reached: the masking line raises NameError
before any value is written). -/
structure ValidityMask where
  shape : List Nat
deriving DecidableEq, Repr

/-- The three `isinstance` input families of `xr_geomedian`
(`xr.DataArray`, `xr.Dataset`, raw array). -/
inductive PyInput
  | np : ArrData → PyInput
  | arr : XDataArray → PyInput
  | dset : XDataset → PyInput
deriving DecidableEq, Repr

/-- One constructor per distinct raise site reachable from `xr_geomedian`. -/
inductive PyError
  | inconsistentDims
    -- ValueError "All bands should have same dimensions" (line 11)
  | expect3Dims
    -- ValueError "Expect 3 dimensions on input" (line 15)
  | noSuchAxis
    -- ValueError "No such axis: ..." (line 18)
  | expect4Dims
    -- ValueError "Expect 4 dimensions on input: y,x,band,time" (lines 52, 62)
  | reduceLastDim
    -- ValueError "Can only reduce last dimension, expect: y,x,band,..." (line 54)
  | daskMaskUnsupported
    -- NotImplementedError "Dask version doesn't support output masking currently" (line 70)
  | whereShapeMismatch
    -- ValueError "Shape for `where` parameter doesn't match" (line 73)
  | nameErrorNp
    -- NameError: name np is not defined (line 91; numpy is never imported)
  | keyError : String → PyError
    -- KeyError from dict / coordinate indexing (lines 97, 106)
  | xrConstruction
    -- xarray DataArray construction rejecting mismatched dims/coords (line 98)
deriving DecidableEq, Repr

/-- Dict lookup, first occurrence (Python `d[k]` would raise; callers check). -/
def getKey? (k : String) : List (String × α) → Option α
  | [] => none
  | (k', v) :: t => if k = k' then some v else getKey? k t

/-- Python `d[k] = v`: replace in place if present, else append. -/
def dictInsert : List (String × α) → String → α → List (String × α)
  | [], k, v => [(k, v)]
  | (k', v') :: t, k, v =>
      if k' = k then (k, v) :: t else (k', v') :: dictInsert t k v

/-- Python `d.update(src)`. -/
def dictUpdate (d src : List (String × α)) : List (String × α) :=
  src.foldl (fun acc p => dictInsert acc p.1 p.2) d

/-- Python `set(l)`: a duplicate-free list with the same members (the source
only inspects cardinality and the sole member of singletons). -/
def pyset [DecidableEq α] : List α → List α
  | [] => []
  | x :: xs => let r := pyset xs; if x ∈ r then r else x :: r

/-- Size of the axis named `d` in an array laid out as `dims`/`shape`. -/
def sizeAlong : List String → List Nat → String → Nat
  | d :: ds, s :: ss, k => if k = d then s else sizeAlong ds ss k
  | _, _, _ => 0

def XDataset.headDims (ds : XDataset) : List String :=
  match ds.bands with
  | [] => []
  | p :: _ => p.2.dims

def XDataset.headShape (ds : XDataset) : List Nat :=
  match ds.bands with
  | [] => []
  | p :: _ => p.2.shape

/-- `ds.to_array(dim=...)`: stack the bands along a new leading axis named
`dim`, whose coordinate is the list of band names in insertion order.  xarray
guarantees all bands of a Dataset agree on the size of every shared dimension
name; the callers of this embedding validate that the dimension tuples agree
before relying on the head band's layout. -/
def XDataset.to_array (ds : XDataset) (dim : String) : XDataArray :=
  { dims := dim :: ds.headDims
    coords := dictInsert ds.coords dim (ds.bands.map (fun p => CVal.s p.1))
    attrs := ds.attrs
    data := ArrData.eager ⟨ds.bands.length :: ds.headShape⟩ }

/-- `xx.transpose(*order)`: reorder the axes by name (applied in the source
only to the materialized result of `to_array`). -/
def XDataArray.transpose (xx : XDataArray) (order : List String) : XDataArray :=
  { xx with dims := order
            data := ArrData.eager ⟨order.map (sizeAlong xx.dims xx.data.shape)⟩ }

/-- Lines 8-34 of the source: `reshape_for_geomedian(ds, axis)`.
`axis` is `Option String` because Python callers may pass `None`; membership
of `None` in a tuple of strings is always false, so a `none` axis falls into
the "No such axis" raise exactly as in Python. -/
def reshape_for_geomedian (ds : XDataset) (axis : Option String) :
    Except PyError XDataArray :=
  match pyset (ds.bands.map (fun p => p.2.dims)) with
  | [dims] =>
    if dims.length ≠ 3 then .error .expect3Dims
    else
      match axis with
      | none => .error .noSuchAxis
      | some ax =>
        if ax ∈ dims then
          let dims' := dims.filter (fun d => d ≠ ax) ++ ["band", ax]
          let nodata : Option CVal :=
            match pyset (ds.bands.map (fun p => p.2.nodata)) with
            | [v] => v
            | _ => none
          let xx := (ds.to_array "band").transpose dims'
          match nodata with
          | some v => .ok { xx with attrs := dictInsert xx.attrs "nodata" v }
          | none => .ok xx
        else .error .noSuchAxis
  | _ => .error .inconsistentDims

/-- The result triple of the inner `norm_input` helper (lines 48-63):
the original Dataset when there was one, the canonical labeled stack when the
input was labeled, and the canonical raw data. -/
structure NormResult where
  ds : Option XDataset
  xx : Option XDataArray
  xx_data : ArrData
deriving DecidableEq, Repr

/-- Lines 48-63 of the source: `norm_input(ds, axis)`. -/
def norm_input (input : PyInput) (axis : Option String) :
    Except PyError NormResult :=
  match input with
  | .arr xx =>
    if xx.dims.length ≠ 4 then .error .expect4Dims
    else
      match axis with
      | some ax =>
        if xx.dims.getD 3 "" ≠ ax then .error .reduceLastDim
        else .ok ⟨none, some xx, xx.data⟩
      | none => .ok ⟨none, some xx, xx.data⟩
  | .dset d => (reshape_for_geomedian d axis).map (fun xx => ⟨some d, some xx, xx.data⟩)
  | .np a =>
    if a.ndim ≠ 4 then .error .expect4Dims
    else .ok ⟨none, none, a⟩

/-- Lines 68-76 of the source: the `where` validation block.  Returns whether
a `set_nan` mask is pending (`where is not None` and both checks passed). -/
def checkWhere (w : Option ValidityMask) (xx_data : ArrData) :
    Except PyError Bool :=
  match w with
  | none => .ok false
  | some m =>
    if xx_data.isDask then .error .daskMaskUnsupported
    else if m.shape ≠ xx_data.shape.take 2 then .error .whereShapeMismatch
    else .ok true

def listMax (l : List Nat) : Nat := l.foldr max 0

/-- dask `a.chunksize`: the per-axis maximum chunk extent. -/
def chunksizeOf (a : DaArray) : List Nat := a.chunks.map listMax

/-- Python `t[-2:]`. -/
def lastTwo (l : List Nat) : List Nat := l.drop (l.length - 2)

/-- dask `rechunk` with an integer target `n` on one axis of extent `total`:
regular blocks of size `n` with a smaller trailing remainder block.  (`n = 0`
cannot arise from the source: the target is a maximum chunk extent of a
positive-extent axis.) -/
def normalizeChunks (n total : Nat) : List Nat :=
  if n = 0 then [total]
  else List.replicate (total / n) n ++ (if total % n = 0 then [] else [total % n])

/-- Line 80 of the source: `xx_data.rechunk(xx_data.chunksize[:2] + (-1, -1))`
on the rank-4 canonical stack — spatial axes keep their maximum chunk extent,
band and time axes become single whole-axis blocks. -/
def rechunkForGm (a : DaArray) : DaArray :=
  let cs := chunksizeOf a
  { shape := a.shape
    chunks := [normalizeChunks (cs.getD 0 0) (a.shape.getD 0 0),
               normalizeChunks (cs.getD 1 0) (a.shape.getD 1 0),
               [a.shape.getD 2 0], [a.shape.getD 3 0]] }

/-- Lines 82-86 of the source: `da.map_blocks(..., drop_axis=3)` — one solver
task per block; the output graph keeps the chunk structure of axes 0..2 and
removes axis 3 (time). -/
def mapBlocksGm (a : DaArray) : DaArray :=
  { shape := a.shape.take 3, chunks := a.chunks.take 3 }

/-- Scheduling events recorded by the embedding, used to express
"no computation was scheduled" and "the solve ran before the failure". -/
inductive Ev
  | rechunk
  | mapBlocks
  | solverCall
deriving DecidableEq, Repr

/-- Lines 78-88 of the source: chunked dispatch or eager solve. -/
def runReducer (gm : NpArray → NpArray) : ArrData → ArrData × List Ev
  | .dask a =>
      let step :=
        if lastTwo a.shape ≠ lastTwo (chunksizeOf a)
        then (rechunkForGm a, [Ev.rechunk])
        else (a, [])
      (.dask (mapBlocksGm step.1), step.2 ++ [Ev.mapBlocks])
  | .eager a => (.eager (gm a), [Ev.solverCall])

/-- The container flavor of the returned value (lines 93-109). -/
inductive XOutput
  | raw : ArrData → XOutput
  | arr : XDataArray → XOutput
  | dset : XDataset → XOutput
deriving DecidableEq, Repr

/-- `xr.DataArray(data, dims=dims, coords=cc)` (line 98): xarray validates
that the data rank matches the dimension count and that every supplied
coordinate matches the size of its axis; the new array carries no attrs. -/
def mkDataArray (data : ArrData) (dims : List String) (coords : Coords) :
    Except PyError XDataArray :=
  if data.shape.length = dims.length ∧
      (∀ p ∈ coords, p.2.length = sizeAlong dims data.shape p.1) then
    .ok ⟨dims, coords, [], data⟩
  else .error .xrConstruction

/-- Line 97 of the source: `cc = {k: xx.coords[k] for k in dims}` — a missing
coordinate raises KeyError. -/
def buildCoords (xx : XDataArray) : List String → Except PyError Coords
  | [] => .ok []
  | k :: ks =>
    match getKey? k xx.coords with
    | none => .error (.keyError k)
    | some vs => (buildCoords xx ks).map (fun cc => (k, vs) :: cc)

def cvKey : CVal → String
  | .s s => s
  | .i n => toString n

/-- `xx_out.to_dataset(dim='band')` (line 104): split along the band axis; the
band-coordinate labels become the band names, the band coordinate is dropped,
and the split variables carry no attrs (xarray clears them). -/
def XDataArray.to_dataset (xx : XDataArray) (dim : String) :
    Except PyError XDataset :=
  match getKey? dim xx.coords with
  | none => .error (.keyError dim)
  | some labels =>
      let outDims := xx.dims.filter (fun d => d ≠ dim)
      let outShape := (xx.dims.zip xx.data.shape).filterMap
          (fun p => if p.1 = dim then none else some p.2)
      .ok { bands := labels.map (fun l => (cvKey l, XBand.mk outDims outShape none []))
            coords := xx.coords.filter (fun p => p.1 ≠ dim)
            attrs := xx.attrs }

/-- One iteration of the loop at lines 105-107 of the source:
`src, dst = ds[b], ds_out[b]; dst.attrs.update(src.attrs)`
(`ds_out[b]` raises KeyError if absent). -/
def copyStep (p : String × XBand) (acc : XDataset) : Except PyError XDataset :=
  match getKey? p.1 acc.bands with
  | some dst =>
      Except.ok { acc with
        bands := dictInsert acc.bands p.1
          { dst with attrs := dictUpdate dst.attrs p.2.attrs } }
  | none => Except.error (PyError.keyError p.1)

/-- Lines 105-107 of the source: copy each input band's attrs onto the
matching output band. -/
def copyBandAttrs (dsIn dsOut : XDataset) : Except PyError XDataset :=
  dsIn.bands.foldlM (fun acc p => copyStep p acc) dsOut

/-- Lines 93-109 of the source: rewrap the reduced data into the caller's
container flavor. -/
def rebuildOutput (n : NormResult) (data : ArrData) : Except PyError XOutput :=
  match n.xx with
  | none => .ok (.raw data)
  | some xx =>
    match buildCoords xx xx.dims.dropLast with
    | .error e => .error e
    | .ok cc =>
      match mkDataArray data xx.dims.dropLast cc with
      | .error e => .error e
      | .ok xx_out =>
        match n.ds with
        | none => .ok (.arr { xx_out with attrs := dictUpdate xx_out.attrs xx.attrs })
        | some ds0 =>
          match xx_out.to_dataset "band" with
          | .error e => .error e
          | .ok ds_out =>
            match copyBandAttrs ds0 ds_out with
            | .error e => .error e
            | .ok ds_out => .ok (.dset ds_out)

/-- Lines 36-109 of the source, as result-or-error plus the scheduling trace.
The `set_nan` branch (lines 90-91) evaluates `np.nan` first; `np` is unbound
in the module, so the branch raises NameError before writing anything. -/
def xrCore (gm : NpArray → NpArray) (input : PyInput) (axis : Option String)
    (w : Option ValidityMask) : Except PyError XOutput × List Ev :=
  match norm_input input axis with
  | .error e => (.error e, [])
  | .ok n =>
    match checkWhere w n.xx_data with
    | .error e => (.error e, [])
    | .ok set_nan =>
      let r := runReducer gm n.xx_data
      if set_nan then (.error .nameErrorNp, r.2)
      else (rebuildOutput n r.1, r.2)

/-- The full observable outcome of one call: result, scheduling trace, and
the input objects as they stand when the call returns (the source performs
no write that can reach them — see the module comment). -/
structure CallResult where
  res : Except PyError XOutput
  trace : List Ev
  input_final : PyInput
  where_final : Option ValidityMask
deriving Repr

/-- `xr_geomedian(ds, axis, where, **kwargs)`, lines 36-109 of the source.
The external solver (with its kwargs already applied) is the parameter `gm`. -/
def xr_geomedian (gm : NpArray → NpArray) (input : PyInput)
    (axis : Option String) (w : Option ValidityMask) : CallResult :=
  { res := (xrCore gm input axis w).1
    trace := (xrCore gm input axis w).2
    input_final := input
    where_final := w }

/-- The names bound at module top level by `src/xr_geomedian.py`
(import block lines 1-6 plus the two function defs).  `np` is absent. -/
def moduleTopLevelNames : List String :=
  ["nangeomedian_pcm", "dask", "xr", "da", "reshape_for_geomedian", "xr_geomedian"]

/-- The spec's `ShapeError` class: the two raise sites whose condition is a
rank / shape mismatch. -/
def isShapeError : PyError → Bool
  | .expect4Dims => true
  | .whereShapeMismatch => true
  | _ => false

/-- A concrete stand-in solver for witnesses: returns an array of the
documented output shape (spatial-1, spatial-2, band). -/
def gmConst : NpArray → NpArray := fun a => ⟨a.shape.take 3⟩

/-! ### Library lemmas about the embedded dict / set / chunk primitives -/

theorem mem_pyset [DecidableEq α] (a : α) (l : List α) : a ∈ pyset l ↔ a ∈ l := by
  induction l with
  | nil => simp [pyset]
  | cons x xs ih =>
    simp only [pyset]
    by_cases hx : x ∈ pyset xs
    · simp only [if_pos hx, List.mem_cons, ih]
      constructor
      · exact fun h => Or.inr h
      · rintro (rfl | h)
        · exact ih.mp hx
        · exact h
    · simp [if_neg hx, ih]

theorem pyset_const [DecidableEq α] (a : α) (l : List α) (h : l ≠ [])
    (hall : ∀ x ∈ l, x = a) : pyset l = [a] := by
  induction l with
  | nil => exact absurd rfl h
  | cons x xs ih =>
    have hx : x = a := hall x (List.mem_cons_self x xs)
    by_cases hxs : xs = []
    · subst hxs; simp [pyset, hx]
    · have hrec : pyset xs = [a] :=
        ih hxs (fun y hy => hall y (List.mem_cons_of_mem _ hy))
      simp [pyset, hrec, hx]

theorem pyset_singleton [DecidableEq α] {a : α} {l : List α}
    (h : pyset l = [a]) : l ≠ [] ∧ ∀ x ∈ l, x = a := by
  constructor
  · rintro rfl
    simp [pyset] at h
  · intro x hx
    have : x ∈ pyset l := (mem_pyset x l).mpr hx
    rw [h] at this
    simpa using this

theorem getKey?_eq_none {α} (k : String) (d : List (String × α))
    (h : k ∉ d.map Prod.fst) : getKey? k d = none := by
  induction d with
  | nil => rfl
  | cons p t ih =>
    simp only [List.map_cons, List.mem_cons] at h
    push_neg at h
    simp [getKey?, h.1, ih h.2]

theorem getKey?_append {α} (k : String) (d1 d2 : List (String × α)) :
    getKey? k (d1 ++ d2) =
      match getKey? k d1 with
      | some v => some v
      | none => getKey? k d2 := by
  induction d1 with
  | nil => simp [getKey?]
  | cons p t ih =>
    by_cases h : k = p.1
    · simp [getKey?, h]
    · simp [getKey?, h, ih]

theorem getKey?_dictInsert_self {α} (d : List (String × α)) (k : String) (v : α) :
    getKey? k (dictInsert d k v) = some v := by
  induction d with
  | nil => simp [dictInsert, getKey?]
  | cons p t ih =>
    by_cases h : p.1 = k
    · simp [dictInsert, h, getKey?]
    · have h' : k ≠ p.1 := fun hk => h hk.symm
      simp [dictInsert, h, getKey?, h', ih]

theorem getKey?_dictInsert_ne {α} (d : List (String × α)) (k k' : String) (v : α)
    (h : k' ≠ k) : getKey? k' (dictInsert d k v) = getKey? k' d := by
  induction d with
  | nil => simp [dictInsert, getKey?, h]
  | cons p t ih =>
    by_cases hp : p.1 = k
    · subst hp
      simp [dictInsert, getKey?, h, if_neg h]
    · by_cases hk' : k' = p.1
      · simp [dictInsert, hp, getKey?, hk']
      · simp [dictInsert, hp, getKey?, hk', ih]

theorem dictInsert_of_none {α} (d : List (String × α)) (k : String) (v : α)
    (h : getKey? k d = none) : dictInsert d k v = d ++ [(k, v)] := by
  induction d with
  | nil => rfl
  | cons p t ih =>
    simp only [getKey?] at h
    by_cases hk : k = p.1
    · simp [hk] at h
    · have hp : p.1 ≠ k := fun hh => hk hh.symm
      simp only [if_neg hk] at h
      simp [dictInsert, hp, ih h]

theorem dictUpdate_of_disjoint {α} (src d : List (String × α))
    (hdis : ∀ p ∈ src, getKey? p.1 d = none)
    (hnd : (src.map Prod.fst).Nodup) : dictUpdate d src = d ++ src := by
  induction src generalizing d with
  | nil => simp [dictUpdate]
  | cons p t ih =>
    simp only [List.map_cons, List.nodup_cons] at hnd
    have h1 : getKey? p.1 d = none := hdis p (List.mem_cons_self p t)
    have step : dictInsert d p.1 p.2 = d ++ [p] := by
      have := dictInsert_of_none d p.1 p.2 h1
      simpa using this
    have hdis' : ∀ q ∈ t, getKey? q.1 (d ++ [p]) = none := by
      intro q hq
      rw [getKey?_append]
      have hqd : getKey? q.1 d = none := hdis q (List.mem_cons_of_mem _ hq)
      have hqp : q.1 ≠ p.1 := by
        intro hqp
        exact hnd.1 (hqp ▸ List.mem_map_of_mem Prod.fst hq)
      simp [hqd, getKey?, hqp]
    have ihres := ih (d ++ [p]) hdis' hnd.2
    calc dictUpdate d (p :: t)
        = dictUpdate (dictInsert d p.1 p.2) t := by simp [dictUpdate, List.foldl_cons]
      _ = dictUpdate (d ++ [p]) t := by rw [step]
      _ = (d ++ [p]) ++ t := ihres
      _ = d ++ p :: t := by simp

theorem dictUpdate_nil {α} (src : List (String × α))
    (hnd : (src.map Prod.fst).Nodup) : dictUpdate [] src = src := by
  have := dictUpdate_of_disjoint src [] (fun p _ => rfl) hnd
  simpa using this

theorem listMax_le_sum (l : List Nat) : listMax l ≤ l.sum := by
  induction l with
  | nil => simp [listMax]
  | cons x t ih =>
    simp only [listMax, List.foldr_cons, List.sum_cons]
    exact max_le (Nat.le_add_right _ _) (le_trans ih (Nat.le_add_left _ _))

theorem le_listMax_of_mem {x : Nat} {l : List Nat} (h : x ∈ l) : x ≤ listMax l := by
  induction l with
  | nil => simp at h
  | cons y t ih =>
    simp only [listMax, List.foldr_cons]
    rcases List.mem_cons.mp h with rfl | h'
    · exact le_max_left _ _
    · exact le_trans (ih h') (le_max_right _ _)

theorem chunks_single_of_max_eq_sum {l : List Nat} {s : Nat}
    (hpos : ∀ x ∈ l, 0 < x) (hsum : l.sum = s) (hs : 0 < s)
    (hmax : listMax l = s) : l = [s] := by
  cases l with
  | nil => simp at hsum; omega
  | cons a t =>
    cases t with
    | nil =>
      have ha : a = s := by simpa using hsum
      rw [ha]
    | cons b t' =>
      exfalso
      have ha : 0 < a := hpos a (by simp)
      have hb : 0 < b := hpos b (by simp)
      have htsum : 0 < (b :: t').sum := by
        simp only [List.sum_cons]; omega
      have h1 : listMax (b :: t') ≤ (b :: t').sum := listMax_le_sum _
      have h2 : listMax (a :: b :: t') = max a (listMax (b :: t')) := rfl
      have h3 : a + (b :: t').sum = s := by
        simpa [List.sum_cons] using hsum
      rw [h2] at hmax
      rcases max_cases a (listMax (b :: t')) with ⟨heq, _⟩ | ⟨heq, _⟩ <;> omega

theorem normalizeChunks_sum (n t : Nat) (hn : 0 < n) :
    (normalizeChunks n t).sum = t := by
  simp only [normalizeChunks, if_neg (Nat.pos_iff_ne_zero.mp hn)]
  by_cases h : t % n = 0
  · simp [h, List.sum_replicate, smul_eq_mul,
      Nat.div_mul_cancel (Nat.dvd_of_mod_eq_zero h)]
  · simp only [if_neg h, List.sum_append, List.sum_replicate, smul_eq_mul,
      List.sum_cons, List.sum_nil, Nat.add_zero]
    rw [Nat.mul_comm]
    exact Nat.div_add_mod t n

/-! ### Error classification of the pipeline stages -/

theorem reshape_err {ds : XDataset} {axis : Option String} {e : PyError}
    (h : reshape_for_geomedian ds axis = .error e) :
    e = .inconsistentDims ∨ e = .expect3Dims ∨ e = .noSuchAxis := by
  unfold reshape_for_geomedian at h
  split at h
  · split at h
    · simp only [Except.error.injEq] at h
      exact Or.inr (Or.inl h.symm)
    · split at h
      · simp only [Except.error.injEq] at h
        exact Or.inr (Or.inr h.symm)
      · split at h
        · split at h
          · dsimp only at h
            split at h <;> simp at h
          · simp at h
        · simp only [Except.error.injEq] at h
          exact Or.inr (Or.inr h.symm)
  · simp only [Except.error.injEq] at h
    exact Or.inl h.symm

theorem norm_err {input : PyInput} {axis : Option String} {e : PyError}
    (h : norm_input input axis = .error e) :
    e = .expect4Dims ∨ e = .reduceLastDim ∨ e = .inconsistentDims ∨
      e = .expect3Dims ∨ e = .noSuchAxis := by
  cases input with
  | arr xx =>
    simp only [norm_input] at h
    split at h
    · simp only [Except.error.injEq] at h
      exact Or.inl h.symm
    · split at h
      · split at h
        · simp only [Except.error.injEq] at h
          exact Or.inr (Or.inl h.symm)
        · simp at h
      · simp at h
  | dset d =>
    simp only [norm_input] at h
    cases hr : reshape_for_geomedian d axis with
    | ok xx => rw [hr] at h; simp [Except.map] at h
    | error e0 =>
      rw [hr] at h
      simp only [Except.map, Except.error.injEq] at h
      subst h
      rcases reshape_err hr with h1 | h1 | h1 <;> simp [h1]
  | np a =>
    simp only [norm_input] at h
    split at h
    · simp only [Except.error.injEq] at h
      exact Or.inl h.symm
    · simp at h

theorem checkWhere_err {w : Option ValidityMask} {d : ArrData} {e : PyError}
    (h : checkWhere w d = .error e) :
    e = .daskMaskUnsupported ∨ e = .whereShapeMismatch := by
  cases w with
  | none => simp [checkWhere] at h
  | some m =>
    simp only [checkWhere] at h
    split at h
    · simp only [Except.error.injEq] at h
      exact Or.inl h.symm
    · split at h
      · simp only [Except.error.injEq] at h
        exact Or.inr h.symm
      · simp at h

theorem checkWhere_whereShape {w : Option ValidityMask} {d : ArrData}
    (h : checkWhere w d = .error .whereShapeMismatch) :
    ∃ m, w = some m ∧ d.isDask = false ∧ m.shape ≠ d.shape.take 2 := by
  cases w with
  | none => simp [checkWhere] at h
  | some m =>
    simp only [checkWhere] at h
    split at h
    next hd => simp at h
    next hd =>
      split at h
      next hs => exact ⟨m, rfl, by simpa using hd, hs⟩
      next hs => simp at h

theorem mkDataArray_err {data : ArrData} {dims : List String} {coords : Coords}
    {e : PyError} (h : mkDataArray data dims coords = .error e) :
    e = .xrConstruction := by
  unfold mkDataArray at h
  split at h
  · simp at h
  · simp only [Except.error.injEq] at h
    exact h.symm

theorem buildCoords_err {xx : XDataArray} {ks : List String} {e : PyError}
    (h : buildCoords xx ks = .error e) : ∃ k, e = .keyError k := by
  induction ks with
  | nil => simp [buildCoords] at h
  | cons k t ih =>
    unfold buildCoords at h
    split at h
    · simp only [Except.error.injEq] at h
      exact ⟨k, h.symm⟩
    · cases hb : buildCoords xx t with
      | error e0 =>
        rw [hb] at h
        simp only [Except.map, Except.error.injEq] at h
        subst h
        exact ih hb
      | ok cc =>
        rw [hb] at h
        simp [Except.map] at h

theorem to_dataset_err {xx : XDataArray} {dim : String} {e : PyError}
    (h : xx.to_dataset dim = .error e) : ∃ k, e = .keyError k := by
  unfold XDataArray.to_dataset at h
  split at h
  · simp only [Except.error.injEq] at h
    exact ⟨dim, h.symm⟩
  · simp at h

theorem copyStep_err {p : String × XBand} {acc : XDataset} {e : PyError}
    (h : copyStep p acc = .error e) : ∃ k, e = .keyError k := by
  unfold copyStep at h
  split at h
  · simp at h
  · simp only [Except.error.injEq] at h
    exact ⟨p.1, h.symm⟩

theorem exceptBindErr {α β : Type} (e : PyError) (f : α → Except PyError β) :
    (Except.error e : Except PyError α) >>= f = Except.error e := rfl

theorem exceptBindOk {α β : Type} (a : α) (f : α → Except PyError β) :
    (Except.ok a : Except PyError α) >>= f = f a := rfl

theorem exceptPureEq {α : Type} (a : α) :
    (pure a : Except PyError α) = Except.ok a := rfl

theorem copyFold_err {t : List (String × XBand)} {acc : XDataset} {e : PyError}
    (h : t.foldlM (fun acc p => copyStep p acc) acc = .error e) :
    ∃ k, e = .keyError k := by
  induction t generalizing acc with
  | nil =>
    rw [List.foldlM_nil, exceptPureEq] at h
    simp at h
  | cons p t ih =>
    rw [List.foldlM_cons] at h
    cases hs : copyStep p acc with
    | error e0 =>
      rw [hs, exceptBindErr, Except.error.injEq] at h
      subst h
      exact copyStep_err hs
    | ok acc1 =>
      rw [hs, exceptBindOk] at h
      exact ih h

theorem copyBandAttrs_err {dsIn dsOut : XDataset} {e : PyError}
    (h : copyBandAttrs dsIn dsOut = .error e) : ∃ k, e = .keyError k := by
  unfold copyBandAttrs at h
  exact copyFold_err h

theorem rebuild_err {n : NormResult} {data : ArrData} {e : PyError}
    (h : rebuildOutput n data = .error e) :
    e = .xrConstruction ∨ ∃ k, e = .keyError k := by
  unfold rebuildOutput at h
  split at h
  · simp at h
  next xx hxx =>
    split at h
    next e0 hbc =>
      simp only [Except.error.injEq] at h
      subst h
      exact Or.inr (buildCoords_err hbc)
    next cc hbc =>
      split at h
      next e0 hmk =>
        simp only [Except.error.injEq] at h
        subst h
        exact Or.inl (mkDataArray_err hmk)
      next xx_out hmk =>
        split at h
        · simp at h
        next ds0 hds =>
          split at h
          next e0 htd =>
            simp only [Except.error.injEq] at h
            subst h
            exact Or.inr (to_dataset_err htd)
          next ds_out htd =>
            split at h
            next e0 hcp =>
              simp only [Except.error.injEq] at h
              subst h
              exact Or.inr (copyBandAttrs_err hcp)
            next ds_out2 hcp => simp at h

/-! ### Claim theorems -/

/-- C1 (evaluation of the code at the failing input): an eager call with a
correctly-shaped all-true ValidityMask does not return a masked result as the
claim states — the per-pixel solve runs, and then the masking step of lines
90-91 raises NameError because `np` is unbound in the module, so the call
fails instead of returning. -/
theorem C1_eager_mask_raises_nameerror :
    xr_geomedian gmConst (PyInput.np (ArrData.eager ⟨[2, 2, 1, 3]⟩))
        (some "time") (some ⟨[2, 2]⟩) =
      ⟨Except.error PyError.nameErrorNp, [Ev.solverCall],
       PyInput.np (ArrData.eager ⟨[2, 2, 1, 3]⟩), some ⟨[2, 2]⟩⟩ := rfl

/-- C2: supplying a ValidityMask together with a chunked/deferred
(dask-backed) input makes `xr_geomedian` fail with the
NotImplementedError-class raise of line 70 before any computation is
scheduled: the result is exactly that error and the scheduling trace is
empty — no rechunk, no block map, and no solver call is ever built. -/
theorem C2_dask_mask_rejected_before_compute (gm : NpArray → NpArray)
    (input : PyInput) (axis : Option String) (m : ValidityMask) (n : NormResult)
    (h : norm_input input axis = Except.ok n) (hd : n.xx_data.isDask = true) :
    xr_geomedian gm input axis (some m) =
      ⟨Except.error PyError.daskMaskUnsupported, [], input, some m⟩ := by
  unfold xr_geomedian xrCore
  rw [h]
  simp [checkWhere, hd]

/-- C2 witness: a concrete chunked raw input together with a mask. -/
theorem C2_dask_mask_rejected_before_compute_witness :
    xr_geomedian gmConst
        (PyInput.np (ArrData.dask ⟨[1, 1, 1, 1], [[1], [1], [1], [1]]⟩))
        (some "time") (some ⟨[1, 1]⟩) =
      ⟨Except.error PyError.daskMaskUnsupported, [],
       PyInput.np (ArrData.dask ⟨[1, 1, 1, 1], [[1], [1], [1], [1]]⟩),
       some ⟨[1, 1]⟩⟩ :=
  C2_dask_mask_rejected_before_compute gmConst _ _ _
    ⟨none, none, ArrData.dask ⟨[1, 1, 1, 1], [[1], [1], [1], [1]]⟩⟩ rfl rfl

/-- C3 counterexample: on a chunked input whose spatial axes hold two chunks
each and whose band axis holds two chunks, the reducer does NOT merge the
spatial axes into single blocks (their chunk lists stay `[2,2]`, not `[4]`)
and it DOES re-chunk the band axis (from `[1,1]` to the single block `[2]`) —
the claim has the merged axes backwards. -/
theorem C3_spatial_merge_counterexample :
    (xr_geomedian gmConst
        (PyInput.np (ArrData.dask ⟨[4, 4, 2, 3], [[2, 2], [2, 2], [1, 1], [3]]⟩))
        (some "time") none).res =
      Except.ok (XOutput.raw (ArrData.dask ⟨[4, 4, 2], [[2, 2], [2, 2], [2]]⟩)) ∧
    ([2, 2] : List Nat) ≠ [4] ∧
    ([2] : List Nat) ≠ [1, 1] :=
  ⟨rfl, by decide, by decide⟩

/-- C6 counterexample: two bands whose dimension tuples carry the same
members in different orders agree as dimension SETS, yet the normalizer
raises the inconsistent-dimensions error (line 11 compares ordered tuples),
so the claim's set-based trigger is wrong. -/
theorem C6_dimension_set_counterexample :
    reshape_for_geomedian
        ⟨[("a", ⟨["y", "x", "time"], [1, 1, 1], none, []⟩),
          ("b", ⟨["x", "y", "time"], [1, 1, 1], none, []⟩)], [], []⟩
        (some "time") = Except.error PyError.inconsistentDims ∧
    (∀ d ∈ (["y", "x", "time"] : List String), d ∈ (["x", "y", "time"] : List String)) ∧
    (∀ d ∈ (["x", "y", "time"] : List String), d ∈ (["y", "x", "time"] : List String)) :=
  ⟨rfl, by decide, by decide⟩

/-- C7 counterexample: under chunked execution with a size-mismatched mask,
the mask-shape condition of the claim holds, yet the call raises the
NotImplementedError-class dask-masking error, not a ShapeError-class error —
the line 69 check fires before the line 72 shape check. -/
theorem C7_mask_shape_counterexample :
    (xr_geomedian gmConst
        (PyInput.np (ArrData.dask ⟨[2, 2, 1, 3], [[2], [2], [1], [3]]⟩))
        (some "time") (some ⟨[9, 9]⟩)).res =
      Except.error PyError.daskMaskUnsupported ∧
    isShapeError PyError.daskMaskUnsupported = false ∧
    ([9, 9] : List Nat) ≠ ([2, 2, 1, 3] : List Nat).take 2 :=
  ⟨rfl, rfl, by decide⟩

/-- C9: the call treats its inputs as read-only — the input
array/collection and the optional ValidityMask are unchanged in the final
state of the call.  (The source performs no write that reaches its inputs:
its three in-place updates target the freshly built `to_array`/`transpose`
result, the solver output, and the freshly built output dataset; see the
module docstring.) -/
theorem C9_inputs_read_only (gm : NpArray → NpArray) (input : PyInput)
    (axis : Option String) (w : Option ValidityMask) :
    (xr_geomedian gm input axis w).input_final = input ∧
    (xr_geomedian gm input axis w).where_final = w :=
  ⟨rfl, rfl⟩

/-- C10: the module imports hdstats, dask, xarray and dask.array but never
binds `np`; for every eager call supplying a ValidityMask of matching
spatial shape (an all-true mask included), the masking step references the
unbound name and the call fails with the NameError-class error instead of
returning a masked result — and only after the per-pixel solve has already
run (the trace is exactly one solver call). -/
theorem C10_np_unbound_nameerror (gm : NpArray → NpArray) (input : PyInput)
    (axis : Option String) (m : ValidityMask) (n : NormResult)
    (h : norm_input input axis = Except.ok n) (he : n.xx_data.isDask = false)
    (hs : m.shape = n.xx_data.shape.take 2) :
    (xr_geomedian gm input axis (some m)).res = Except.error PyError.nameErrorNp ∧
    (xr_geomedian gm input axis (some m)).trace = [Ev.solverCall] ∧
    "np" ∉ moduleTopLevelNames := by
  obtain ⟨a, ha⟩ : ∃ a, n.xx_data = ArrData.eager a := by
    cases hx : n.xx_data with
    | eager a => exact ⟨a, rfl⟩
    | dask a => rw [hx] at he; simp [ArrData.isDask] at he
  rw [ha] at hs
  refine ⟨?_, ?_, by decide⟩ <;>
  · unfold xr_geomedian xrCore
    rw [h]
    simp [checkWhere, ha, hs, runReducer, ArrData.isDask]

/-- C10 witness: a concrete eager raw input with a matching all-true mask. -/
theorem C10_np_unbound_nameerror_witness :
    (xr_geomedian gmConst (PyInput.np (ArrData.eager ⟨[2, 3, 4, 5]⟩))
        (some "time") (some ⟨[2, 3]⟩)).res = Except.error PyError.nameErrorNp ∧
    (xr_geomedian gmConst (PyInput.np (ArrData.eager ⟨[2, 3, 4, 5]⟩))
        (some "time") (some ⟨[2, 3]⟩)).trace = [Ev.solverCall] ∧
    "np" ∉ moduleTopLevelNames :=
  C10_np_unbound_nameerror gmConst _ _ _
    ⟨none, none, ArrData.eager ⟨[2, 3, 4, 5]⟩⟩ rfl rfl rfl

/-- Well-formed dask chunking of one axis: positive block extents summing to
the axis extent. -/
def wfChunks (c : List Nat) (s : Nat) : Prop := (∀ x ∈ c, 0 < x) ∧ c.sum = s

theorem listMax_pos {c : List Nat} {s : Nat} (hw : wfChunks c s) (hs : 0 < s) :
    0 < listMax c := by
  cases c with
  | nil =>
    have := hw.2
    simp at this
    omega
  | cons a t =>
    have ha : 0 < a := hw.1 a (by simp)
    exact lt_of_lt_of_le ha (le_listMax_of_mem (by simp))

/-- C3 (amended): for every chunked/deferred input, the reducer repartitions
before dispatch by merging the BAND and TIME axes into single whole-axis
blocks (when they are not already single blocks), leaving the spatial axes'
chunking alone (a spatial chunk list that is already regular for its maximum
block extent is preserved unchanged), then maps the solver independently per
spatial block, and the resulting output chunk graph has the time axis
removed (three chunk lists, shape without the time extent). -/
theorem C3_amended_band_time_merged (gm : NpArray → NpArray)
    (axis : Option String) (s0 s1 s2 s3 : Nat) (c0 c1 c2 c3 : List Nat)
    (h0 : wfChunks c0 s0) (h1 : wfChunks c1 s1) (h2 : wfChunks c2 s2)
    (h3 : wfChunks c3 s3)
    (hp0 : 0 < s0) (hp1 : 0 < s1) (hp2 : 0 < s2) (hp3 : 0 < s3) :
    ∃ d0 d1,
      (xr_geomedian gm
          (PyInput.np (ArrData.dask ⟨[s0, s1, s2, s3], [c0, c1, c2, c3]⟩))
          axis none).res
        = Except.ok (XOutput.raw (ArrData.dask ⟨[s0, s1, s2], [d0, d1, [s2]]⟩))
      ∧ d0.sum = s0 ∧ d1.sum = s1
      ∧ (c0 = normalizeChunks (listMax c0) s0 → d0 = c0)
      ∧ (c1 = normalizeChunks (listMax c1) s1 → d1 = c1)
      ∧ ((xr_geomedian gm
            (PyInput.np (ArrData.dask ⟨[s0, s1, s2, s3], [c0, c1, c2, c3]⟩))
            axis none).trace = [Ev.mapBlocks]
         ∨ (xr_geomedian gm
            (PyInput.np (ArrData.dask ⟨[s0, s1, s2, s3], [c0, c1, c2, c3]⟩))
            axis none).trace = [Ev.rechunk, Ev.mapBlocks]) := by
  have hl1 : lastTwo [s0, s1, s2, s3] = [s2, s3] := by simp [lastTwo]
  have hl2 : lastTwo (chunksizeOf ⟨[s0, s1, s2, s3], [c0, c1, c2, c3]⟩)
      = [listMax c2, listMax c3] := by simp [lastTwo, chunksizeOf]
  by_cases hcond : ([s2, s3] : List Nat) = [listMax c2, listMax c3]
  · have hc2 : c2 = [s2] := by
      have e2 : listMax c2 = s2 := by
        have := List.cons.injEq s2 [s3] (listMax c2) [listMax c3] ▸ hcond
        simp at hcond
        exact hcond.1.symm
      exact chunks_single_of_max_eq_sum h2.1 h2.2 hp2 e2
    have hcnd : lastTwo [s0, s1, s2, s3]
        = lastTwo (chunksizeOf ⟨[s0, s1, s2, s3], [c0, c1, c2, c3]⟩) := by
      rw [hl1, hl2]; exact hcond
    have hxr : xr_geomedian gm
        (PyInput.np (ArrData.dask ⟨[s0, s1, s2, s3], [c0, c1, c2, c3]⟩)) axis none =
        ⟨Except.ok (XOutput.raw (ArrData.dask ⟨[s0, s1, s2], [c0, c1, c2]⟩)),
         [Ev.mapBlocks],
         PyInput.np (ArrData.dask ⟨[s0, s1, s2, s3], [c0, c1, c2, c3]⟩), none⟩ := by
      unfold xr_geomedian xrCore
      simp [norm_input, ArrData.ndim, ArrData.shape, checkWhere, runReducer,
            hcnd, rebuildOutput, mapBlocksGm]
    refine ⟨c0, c1, ?_, h0.2, h1.2, fun _ => rfl, fun _ => rfl, ?_⟩
    · rw [hxr, hc2]
    · left; rw [hxr]
  · have hrc : rechunkForGm ⟨[s0, s1, s2, s3], [c0, c1, c2, c3]⟩ =
        ⟨[s0, s1, s2, s3],
         [normalizeChunks (listMax c0) s0, normalizeChunks (listMax c1) s1,
          [s2], [s3]]⟩ := by
      simp [rechunkForGm, chunksizeOf]
    have hcnd : ¬ (lastTwo [s0, s1, s2, s3]
        = lastTwo (chunksizeOf ⟨[s0, s1, s2, s3], [c0, c1, c2, c3]⟩)) := by
      rw [hl1, hl2]; exact hcond
    have hxr : xr_geomedian gm
        (PyInput.np (ArrData.dask ⟨[s0, s1, s2, s3], [c0, c1, c2, c3]⟩)) axis none =
        ⟨Except.ok (XOutput.raw (ArrData.dask ⟨[s0, s1, s2],
            [normalizeChunks (listMax c0) s0, normalizeChunks (listMax c1) s1, [s2]]⟩)),
         [Ev.rechunk, Ev.mapBlocks],
         PyInput.np (ArrData.dask ⟨[s0, s1, s2, s3], [c0, c1, c2, c3]⟩), none⟩ := by
      unfold xr_geomedian xrCore
      simp [norm_input, ArrData.ndim, ArrData.shape, checkWhere, runReducer,
            hcnd, rebuildOutput, mapBlocksGm, hrc]
    refine ⟨normalizeChunks (listMax c0) s0, normalizeChunks (listMax c1) s1,
        ?_, ?_, ?_, ?_, ?_, ?_⟩
    · rw [hxr]
    · exact normalizeChunks_sum _ _ (listMax_pos h0 hp0)
    · exact normalizeChunks_sum _ _ (listMax_pos h1 hp1)
    · intro hreg; exact hreg.symm
    · intro hreg; exact hreg.symm
    · right; rw [hxr]

/-- C3 (amended) witness: a concrete chunked input with a chunked band axis;
the dispatched graph keeps the spatial chunking and merges band and time. -/
theorem C3_amended_band_time_merged_witness :
    ∃ d0 d1,
      (xr_geomedian gmConst
          (PyInput.np (ArrData.dask ⟨[2, 2, 1, 3], [[2], [2], [1], [3]]⟩))
          (some "time") none).res
        = Except.ok (XOutput.raw (ArrData.dask ⟨[2, 2, 1], [d0, d1, [1]]⟩))
      ∧ d0.sum = 2 ∧ d1.sum = 2
      ∧ ([2] = normalizeChunks (listMax [2]) 2 → d0 = [2])
      ∧ ([2] = normalizeChunks (listMax [2]) 2 → d1 = [2])
      ∧ ((xr_geomedian gmConst
            (PyInput.np (ArrData.dask ⟨[2, 2, 1, 3], [[2], [2], [1], [3]]⟩))
            (some "time") none).trace = [Ev.mapBlocks]
         ∨ (xr_geomedian gmConst
            (PyInput.np (ArrData.dask ⟨[2, 2, 1, 3], [[2], [2], [1], [3]]⟩))
            (some "time") none).trace = [Ev.rechunk, Ev.mapBlocks]) :=
  C3_amended_band_time_merged gmConst (some "time") 2 2 1 3 [2] [2] [1] [3]
    ⟨by decide, rfl⟩ ⟨by decide, rfl⟩ ⟨by decide, rfl⟩ ⟨by decide, rfl⟩
    (by decide) (by decide) (by decide) (by decide)

/-! ### Characterizing the normalizer -/

def exceptIsOk : Except PyError α → Bool
  | .ok _ => true
  | .error _ => false

/-- The exact success condition of lines 9-18: one shared ordered dimension
tuple, of rank 3, containing the (non-None) reduction axis. -/
def dimsOK (ds : XDataset) (axis : Option String) : Prop :=
  ∃ d, pyset (ds.bands.map (fun p => p.2.dims)) = [d] ∧ d.length = 3 ∧
    ∃ a, axis = some a ∧ a ∈ d

/-- The canonical stack built by lines 20-29 (before the optional nodata
attribute update). -/
def reshapeStack (ds : XDataset) (d : List String) (a : String) : XDataArray :=
  (ds.to_array "band").transpose (d.filter (fun x => x ≠ a) ++ ["band", a])

theorem pyset_eq_nil [DecidableEq α] {l : List α} (h : pyset l = []) : l = [] := by
  cases l with
  | nil => rfl
  | cons x xs =>
    exfalso
    simp only [pyset] at h
    split at h
    next hx =>
      rw [h] at hx
      exact List.not_mem_nil x hx
    next hx => simp at h

theorem reshape_ok_exists {ds : XDataset} {d : List String} {a : String}
    (hd : pyset (ds.bands.map (fun p => p.2.dims)) = [d])
    (hlen : d.length = 3) (hmem : a ∈ d) :
    ∃ xx, reshape_for_geomedian ds (some a) = Except.ok xx := by
  unfold reshape_for_geomedian
  rw [hd]
  cases hnd : pyset (ds.bands.map (fun p => p.2.nodata)) with
  | nil =>
    exact ⟨reshapeStack ds d a, by simp [reshapeStack, hlen, hmem, hnd]⟩
  | cons v t =>
    cases t with
    | nil =>
      cases v with
      | some v0 =>
        exact ⟨{ reshapeStack ds d a with
                 attrs := dictInsert (reshapeStack ds d a).attrs "nodata" v0 },
               by simp [reshapeStack, hlen, hmem, hnd]⟩
      | none =>
        exact ⟨reshapeStack ds d a, by simp [reshapeStack, hlen, hmem, hnd]⟩
    | cons v2 t2 =>
      exact ⟨reshapeStack ds d a, by simp [reshapeStack, hlen, hmem, hnd]⟩

theorem reshape_isOk_iff (ds : XDataset) (axis : Option String) :
    exceptIsOk (reshape_for_geomedian ds axis) = true ↔ dimsOK ds axis := by
  constructor
  · intro h
    unfold reshape_for_geomedian at h
    split at h
    next d hd =>
      split at h
      · simp [exceptIsOk] at h
      next hlen =>
        split at h
        · simp [exceptIsOk] at h
        next a =>
          split at h
          next hmem =>
            exact ⟨d, hd, by omega, a, rfl, hmem⟩
          next hmem => simp [exceptIsOk] at h
    next => simp [exceptIsOk] at h
  · rintro ⟨d, hd, hlen, a, ha, hmem⟩
    subst ha
    obtain ⟨xx, hxx⟩ := reshape_ok_exists hd hlen hmem
    rw [hxx]
    rfl

/-- C5: nodata resolution in the stack normalizer — for every labeled
collection input, the canonical stack carries a resolved `nodata` attribute
iff every band agrees on one and the same (non-missing) sentinel; when bands
disagree the nodata is simply left unresolved, and resolution never causes an
error: success of the call is exactly the dimension/axis condition `dimsOK`,
which is independent of the nodata values. -/
theorem C5_nodata_resolution (ds : XDataset) (axis : Option String)
    (hattr : getKey? "nodata" ds.attrs = none) :
    (exceptIsOk (reshape_for_geomedian ds axis) = true ↔ dimsOK ds axis) ∧
    (∀ xx, reshape_for_geomedian ds axis = Except.ok xx →
      ((∃ v, getKey? "nodata" xx.attrs = some v) ↔
        (∃ v, ∀ p ∈ ds.bands, p.2.nodata = some v))) := by
  refine ⟨reshape_isOk_iff ds axis, ?_⟩
  intro xx hxx
  unfold reshape_for_geomedian at hxx
  split at hxx
  next d hd =>
    have hbne : ds.bands ≠ [] := by
      intro hb
      rw [hb] at hd
      simp [pyset] at hd
    split at hxx
    · simp at hxx
    next hlen =>
      split at hxx
      · simp at hxx
      next a =>
        split at hxx
        next hmem =>
          dsimp only at hxx
          generalize hnd : pyset (ds.bands.map (fun p => p.2.nodata)) = L0 at hxx
          cases L0 with
          | nil =>
            exfalso
            have : ds.bands.map (fun p => p.2.nodata) = [] := pyset_eq_nil hnd
            simp at this
            exact hbne this
          | cons v t =>
            cases t with
            | nil =>
              cases v with
              | some v0 =>
                simp only [Except.ok.injEq] at hxx
                subst hxx
                constructor
                · intro _
                  obtain ⟨hne, hall⟩ := pyset_singleton hnd
                  exact ⟨v0, fun p hp => hall _ (List.mem_map_of_mem _ hp)⟩
                · intro _
                  exact ⟨v0, getKey?_dictInsert_self _ "nodata" v0⟩
              | none =>
                simp only [Except.ok.injEq] at hxx
                subst hxx
                refine iff_of_false ?_ ?_
                · rintro ⟨v, hv⟩
                  have hv' : getKey? "nodata" ds.attrs = some v := hv
                  rw [hattr] at hv'
                  cases hv'
                · rintro ⟨v, hv⟩
                  obtain ⟨hne, hall⟩ := pyset_singleton hnd
                  obtain ⟨p0, hp0⟩ := List.exists_mem_of_ne_nil _ hbne
                  have h1 : p0.2.nodata = none :=
                    hall _ (List.mem_map_of_mem _ hp0)
                  have h2 : p0.2.nodata = some v := hv p0 hp0
                  rw [h1] at h2
                  cases h2
            | cons v2 t2 =>
              simp only [Except.ok.injEq] at hxx
              subst hxx
              refine iff_of_false ?_ ?_
              · rintro ⟨v, hv⟩
                have hv' : getKey? "nodata" ds.attrs = some v := hv
                rw [hattr] at hv'
                cases hv'
              · rintro ⟨v, hv⟩
                have : pyset (ds.bands.map (fun p => p.2.nodata)) = [some v] := by
                  refine pyset_const _ _ ?_ ?_
                  · simpa using hbne
                  · intro x hx
                    obtain ⟨p, hp, rfl⟩ := List.mem_map.mp hx
                    exact hv p hp
                rw [hnd] at this
                simp at this
        next hmem => simp at hxx
  next => simp at hxx

/-- C5 witness: two bands agreeing on nodata 7; the resolution iff holds. -/
theorem C5_nodata_resolution_witness :
    (exceptIsOk (reshape_for_geomedian
        ⟨[("red", ⟨["y", "x", "time"], [1, 1, 1], some (CVal.i 7), []⟩),
          ("nir", ⟨["y", "x", "time"], [1, 1, 1], some (CVal.i 7), []⟩)], [], []⟩
        (some "time")) = true ↔
      dimsOK ⟨[("red", ⟨["y", "x", "time"], [1, 1, 1], some (CVal.i 7), []⟩),
              ("nir", ⟨["y", "x", "time"], [1, 1, 1], some (CVal.i 7), []⟩)], [], []⟩
        (some "time")) ∧
    (∀ xx, reshape_for_geomedian
        ⟨[("red", ⟨["y", "x", "time"], [1, 1, 1], some (CVal.i 7), []⟩),
          ("nir", ⟨["y", "x", "time"], [1, 1, 1], some (CVal.i 7), []⟩)], [], []⟩
        (some "time") = Except.ok xx →
      ((∃ v, getKey? "nodata" xx.attrs = some v) ↔
        (∃ v, ∀ p ∈ ([("red", (⟨["y", "x", "time"], [1, 1, 1], some (CVal.i 7), []⟩ : XBand)),
                      ("nir", ⟨["y", "x", "time"], [1, 1, 1], some (CVal.i 7), []⟩)]
                    : List (String × XBand)),
            p.2.nodata = some v))) :=
  C5_nodata_resolution
    ⟨[("red", ⟨["y", "x", "time"], [1, 1, 1], some (CVal.i 7), []⟩),
      ("nir", ⟨["y", "x", "time"], [1, 1, 1], some (CVal.i 7), []⟩)], [], []⟩
    (some "time") rfl

/-- C6 (amended): the collection validation sequence, with the first check
comparing ORDERED dimension tuples (not dimension sets): the normalizer
raises the inconsistent-dimensions error exactly when the bands do not all
share one common ordered dimension tuple (in particular for an empty
collection); otherwise, with shared tuple `d`, it raises the rank error when
`d` does not have exactly 3 members; otherwise it raises the missing-axis
error when the named reduction axis (or a None axis) is not among them;
otherwise it succeeds — and the checks fire in that order. -/
theorem C6_amended_validation_sequence (ds : XDataset) (axis : Option String) :
    (((∃ d, pyset (ds.bands.map (fun p => p.2.dims)) = [d]) ↔
        (ds.bands ≠ [] ∧ ∀ p ∈ ds.bands, ∀ q ∈ ds.bands, p.2.dims = q.2.dims)) ∧
     ((¬ ∃ d, pyset (ds.bands.map (fun p => p.2.dims)) = [d]) →
        reshape_for_geomedian ds axis = Except.error PyError.inconsistentDims)) ∧
    (∀ d, pyset (ds.bands.map (fun p => p.2.dims)) = [d] →
      ((d.length ≠ 3 →
          reshape_for_geomedian ds axis = Except.error PyError.expect3Dims) ∧
       (d.length = 3 →
         ((axis = none →
             reshape_for_geomedian ds axis = Except.error PyError.noSuchAxis) ∧
          (∀ a, axis = some a →
            ((a ∉ d →
                reshape_for_geomedian ds axis = Except.error PyError.noSuchAxis) ∧
             (a ∈ d →
                exceptIsOk (reshape_for_geomedian ds axis) = true))))))) := by
  refine ⟨⟨?_, ?_⟩, ?_⟩
  · constructor
    · rintro ⟨d, hd⟩
      obtain ⟨hne, hall⟩ := pyset_singleton hd
      constructor
      · intro hb
        rw [hb] at hne
        simp at hne
      · intro p hp q hq
        have h1 : p.2.dims = d := hall _ (List.mem_map_of_mem _ hp)
        have h2 : q.2.dims = d := hall _ (List.mem_map_of_mem _ hq)
        rw [h1, h2]
    · rintro ⟨hne, hall⟩
      obtain ⟨p0, hp0⟩ := List.exists_mem_of_ne_nil _ hne
      refine ⟨p0.2.dims, pyset_const _ _ ?_ ?_⟩
      · simpa using hne
      · intro x hx
        obtain ⟨q, hq, rfl⟩ := List.mem_map.mp hx
        exact hall q hq p0 hp0
  · intro hne
    unfold reshape_for_geomedian
    split
    next d hd => exact absurd ⟨d, hd⟩ hne
    next => rfl
  · intro d hd
    refine ⟨?_, ?_⟩
    · intro h3
      unfold reshape_for_geomedian
      rw [hd]
      simp [h3]
    · intro h3
      refine ⟨?_, ?_⟩
      · rintro rfl
        unfold reshape_for_geomedian
        rw [hd]
        simp [h3]
      · rintro a rfl
        refine ⟨?_, ?_⟩
        · intro hmem
          unfold reshape_for_geomedian
          rw [hd]
          simp [h3, hmem]
        · intro hmem
          obtain ⟨xx, hxx⟩ := reshape_ok_exists hd h3 hmem
          rw [hxx]
          rfl

/-- C6 (amended) witness: a single-band collection takes the success leaf of
the validation sequence. -/
theorem C6_amended_validation_sequence_witness :
    exceptIsOk (reshape_for_geomedian
        ⟨[("red", ⟨["y", "x", "time"], [1, 1, 1], none, []⟩)], [], []⟩
        (some "time")) = true :=
  ((((C6_amended_validation_sequence
        ⟨[("red", ⟨["y", "x", "time"], [1, 1, 1], none, []⟩)], [], []⟩
        (some "time")).2 ["y", "x", "time"] rfl).2 rfl).2 "time" rfl).2 (by decide)

/-- C8: for every pre-stacked 4-D labeled array input with a specified
(non-None) reduction-axis name, `xr_geomedian` raises the
DimensionOrderError-class error (line 54) if and only if that axis is not
the last (fourth) dimension of the input. -/
theorem C8_dimension_order_iff (gm : NpArray → NpArray) (xx : XDataArray)
    (ax : String) (w : Option ValidityMask) (h4 : xx.dims.length = 4) :
    ((xr_geomedian gm (PyInput.arr xx) (some ax) w).res
        = Except.error PyError.reduceLastDim)
      ↔ xx.dims.getD 3 "" ≠ ax := by
  constructor
  · intro hres
    by_contra hax
    have hnorm : norm_input (PyInput.arr xx) (some ax)
        = Except.ok ⟨none, some xx, xx.data⟩ := by
      simp only [norm_input]
      rw [if_neg (by simp [h4]), if_neg (fun hne => hne hax)]
    unfold xr_geomedian xrCore at hres
    rw [hnorm] at hres
    dsimp only at hres
    cases hcw : checkWhere w xx.data with
    | error e =>
      rw [hcw] at hres
      dsimp only at hres
      simp only [Except.error.injEq] at hres
      subst hres
      rcases checkWhere_err hcw with h | h <;> simp at h
    | ok b =>
      rw [hcw] at hres
      cases b with
      | true => simp at hres
      | false =>
        simp at hres
        rcases rebuild_err hres with h | ⟨k, h⟩ <;> simp at h
  · intro hax
    have hnorm : norm_input (PyInput.arr xx) (some ax)
        = Except.error PyError.reduceLastDim := by
      simp only [norm_input]
      rw [if_neg (by simp [h4]), if_pos hax]
    unfold xr_geomedian xrCore
    rw [hnorm]

/-- C8 witness: a concrete pre-stacked array whose last dimension is "time"
while the requested axis is "moment". -/
theorem C8_dimension_order_iff_witness :
    ((xr_geomedian gmConst
        (PyInput.arr ⟨["y", "x", "band", "time"], [], [], ArrData.eager ⟨[1, 1, 1, 1]⟩⟩)
        (some "moment") none).res = Except.error PyError.reduceLastDim)
      ↔ (["y", "x", "band", "time"] : List String).getD 3 "" ≠ "moment" :=
  C8_dimension_order_iff gmConst
    ⟨["y", "x", "band", "time"], [], [], ArrData.eager ⟨[1, 1, 1, 1]⟩⟩
    "moment" none rfl

/-- Rank-4 validation is exactly the `expect4Dims` raise of `norm_input`. -/
theorem norm_expect4_iff (input : PyInput) (axis : Option String) :
    norm_input input axis = Except.error PyError.expect4Dims ↔
      (match input with
       | PyInput.np a => a.ndim ≠ 4
       | PyInput.arr xx => xx.dims.length ≠ 4
       | PyInput.dset _ => False) := by
  cases input with
  | np a =>
    simp only [norm_input]
    by_cases h : a.ndim ≠ 4
    · simp [h]
    · simp [h]
  | arr xx =>
    by_cases h : xx.dims.length ≠ 4
    · simp only [norm_input]
      simp [h]
    · simp only [norm_input, if_neg h]
      constructor
      · intro hh
        exfalso
        cases axis with
        | none => simp at hh
        | some ax =>
          dsimp only at hh
          split at hh <;> simp at hh
      · intro hh
        exact absurd hh h
  | dset d =>
    simp only [norm_input]
    constructor
    · intro hh
      cases hr : reshape_for_geomedian d axis with
      | ok xxr => rw [hr] at hh; simp [Except.map] at hh
      | error e0 =>
        rw [hr] at hh
        simp only [Except.map, Except.error.injEq] at hh
        subst hh
        rcases reshape_err hr with h | h | h <;> simp at h
    · intro hh
      exact hh.elim

/-- C7 (amended): `xr_geomedian` raises a ShapeError-class error (one of the
two rank/shape raise sites) exactly when the raw or pre-stacked labeled
input does not have rank 4, or when — under EAGER execution — a supplied
ValidityMask's axis sizes differ from the canonical stack's first two axis
sizes (under chunked execution with a mask, the UnsupportedCombination raise
of line 70 takes precedence over the shape check); and whenever a
ShapeError-class error is raised, the scheduling trace is empty — no numeric
work was scheduled. -/
theorem C7_amended_shape_error_iff (gm : NpArray → NpArray) (input : PyInput)
    (axis : Option String) (w : Option ValidityMask) :
    ((∃ e, (xr_geomedian gm input axis w).res = Except.error e ∧
        isShapeError e = true)
      ↔ ((match input with
          | PyInput.np a => a.ndim ≠ 4
          | PyInput.arr xx => xx.dims.length ≠ 4
          | PyInput.dset _ => False)
         ∨ (∃ n, norm_input input axis = Except.ok n ∧
              n.xx_data.isDask = false ∧
              ∃ m, w = some m ∧ m.shape ≠ n.xx_data.shape.take 2)))
    ∧ (∀ e, (xr_geomedian gm input axis w).res = Except.error e →
        isShapeError e = true → (xr_geomedian gm input axis w).trace = []) := by
  constructor
  · constructor
    · rintro ⟨e, hres, hsh⟩
      cases hn : norm_input input axis with
      | error e0 =>
        have he : e0 = e := by
          unfold xr_geomedian xrCore at hres
          rw [hn] at hres
          dsimp only at hres
          simpa using hres
        subst he
        rcases norm_err hn with h | h | h | h | h
        · subst h
          exact Or.inl ((norm_expect4_iff input axis).mp hn)
        all_goals (subst h; simp [isShapeError] at hsh)
      | ok n =>
        unfold xr_geomedian xrCore at hres
        rw [hn] at hres
        dsimp only at hres
        cases hcw : checkWhere w n.xx_data with
        | error e1 =>
          rw [hcw] at hres
          dsimp only at hres
          simp only [Except.error.injEq] at hres
          subst hres
          rcases checkWhere_err hcw with h | h
          · subst h; simp [isShapeError] at hsh
          · subst h
            obtain ⟨m, hm, hd, hs⟩ := checkWhere_whereShape hcw
            exact Or.inr ⟨n, rfl, hd, m, hm, hs⟩
        | ok b =>
          rw [hcw] at hres
          cases b with
          | true =>
            simp at hres
            rw [← hres] at hsh
            simp [isShapeError] at hsh
          | false =>
            simp at hres
            rcases rebuild_err hres with h | ⟨k, h⟩ <;>
              (subst h; simp [isShapeError] at hsh)
    · rintro (hrank | ⟨n, hn, hdsk, m, hm, hs⟩)
      · have hn : norm_input input axis = Except.error PyError.expect4Dims :=
          (norm_expect4_iff input axis).mpr hrank
        refine ⟨PyError.expect4Dims, ?_, rfl⟩
        unfold xr_geomedian xrCore
        rw [hn]
      · subst hm
        have hcw : checkWhere (some m) n.xx_data
            = Except.error PyError.whereShapeMismatch := by
          simp only [checkWhere]
          rw [if_neg (by simp [hdsk]), if_pos hs]
        refine ⟨PyError.whereShapeMismatch, ?_, rfl⟩
        unfold xr_geomedian xrCore
        rw [hn]
        dsimp only
        rw [hcw]
  · intro e hres hsh
    cases hn : norm_input input axis with
    | error e0 =>
      unfold xr_geomedian xrCore
      rw [hn]
    | ok n =>
      unfold xr_geomedian xrCore at hres ⊢
      rw [hn] at hres ⊢
      dsimp only at hres ⊢
      cases hcw : checkWhere w n.xx_data with
      | error e1 => rfl
      | ok b =>
        rw [hcw] at hres
        cases b with
        | true =>
          simp at hres
          rw [← hres] at hsh
          simp [isShapeError] at hsh
        | false =>
          simp at hres
          rcases rebuild_err hres with h | ⟨k, h⟩ <;>
            (subst h; simp [isShapeError] at hsh)

/-- C7 (amended) witness: an eager raw input with a size-mismatched mask
raises a ShapeError-class error. -/
theorem C7_amended_shape_error_iff_witness :
    ∃ e, (xr_geomedian gmConst (PyInput.np (ArrData.eager ⟨[2, 2, 1, 3]⟩))
        (some "time") (some ⟨[5, 5]⟩)).res = Except.error e ∧
      isShapeError e = true :=
  ((C7_amended_shape_error_iff gmConst (PyInput.np (ArrData.eager ⟨[2, 2, 1, 3]⟩))
      (some "time") (some ⟨[5, 5]⟩)).1).2
    (Or.inr ⟨⟨none, none, ArrData.eager ⟨[2, 2, 1, 3]⟩⟩, rfl, rfl,
      ⟨[5, 5]⟩, rfl, by decide⟩)

/-! ### Round-trip machinery -/

theorem map_fst_map_pair {α β : Type} (l : List (String × α))
    (g : String × α → β) :
    (l.map (fun p => (p.1, g p))).map Prod.fst = l.map Prod.fst := by
  rw [List.map_map]
  rfl

theorem dictInsert_append_left {α : Type} {d1 : List (String × α)}
    (d2 : List (String × α)) {k : String} (v : α)
    (h : k ∉ d1.map Prod.fst) :
    dictInsert (d1 ++ d2) k v = d1 ++ dictInsert d2 k v := by
  induction d1 with
  | nil => simp
  | cons p t ih =>
    simp only [List.map_cons, List.mem_cons] at h
    push_neg at h
    have hp : p.1 ≠ k := fun e => h.1 e.symm
    simp [dictInsert, hp, ih h.2]

theorem copyFold_spec (od : List String) (os : List Nat) (C : Coords) (A : Attrs)
    (done todo : List (String × XBand))
    (hnd : ((done ++ todo).map Prod.fst).Nodup)
    (hat : ∀ p ∈ todo, (p.2.attrs.map Prod.fst).Nodup) :
    todo.foldlM (fun acc p => copyStep p acc)
      (⟨done.map (fun p => (p.1, ⟨od, os, none, p.2.attrs⟩))
          ++ todo.map (fun p => (p.1, ⟨od, os, none, []⟩)), C, A⟩ : XDataset)
      = Except.ok ⟨(done ++ todo).map (fun p => (p.1, ⟨od, os, none, p.2.attrs⟩)),
                   C, A⟩ := by
  induction todo generalizing done with
  | nil =>
    rw [List.foldlM_nil, exceptPureEq]
    simp
  | cons p t ih =>
    have hnotdone : p.1 ∉ done.map Prod.fst := by
      rw [List.map_append, List.nodup_append] at hnd
      intro hmem
      exact hnd.2.2 hmem (by simp)
    have hlook : getKey? p.1
        (done.map (fun q => (q.1, (⟨od, os, none, q.2.attrs⟩ : XBand)))
          ++ (p :: t).map (fun q => (q.1, (⟨od, os, none, []⟩ : XBand))))
        = some ⟨od, os, none, []⟩ := by
      rw [getKey?_append, getKey?_eq_none]
      · simp [getKey?]
      · rw [map_fst_map_pair]
        exact hnotdone
    have hstep : copyStep p
        (⟨done.map (fun q => (q.1, ⟨od, os, none, q.2.attrs⟩))
            ++ (p :: t).map (fun q => (q.1, ⟨od, os, none, []⟩)), C, A⟩ : XDataset)
        = Except.ok ⟨(done ++ [p]).map (fun q => (q.1, ⟨od, os, none, q.2.attrs⟩))
            ++ t.map (fun q => (q.1, ⟨od, os, none, []⟩)), C, A⟩ := by
      unfold copyStep
      rw [hlook]
      have hupd : dictUpdate ([] : Attrs) p.2.attrs = p.2.attrs :=
        dictUpdate_nil _ (hat p (by simp))
      have hins : dictInsert
          (done.map (fun q => (q.1, (⟨od, os, none, q.2.attrs⟩ : XBand)))
            ++ (p :: t).map (fun q => (q.1, (⟨od, os, none, []⟩ : XBand))))
          p.1 ⟨od, os, none, p.2.attrs⟩
          = (done ++ [p]).map (fun q => (q.1, ⟨od, os, none, q.2.attrs⟩))
            ++ t.map (fun q => (q.1, ⟨od, os, none, []⟩)) := by
        rw [dictInsert_append_left]
        · simp [dictInsert]
        · rw [map_fst_map_pair]
          exact hnotdone
      simp only [hupd, hins]
    rw [List.foldlM_cons, hstep, exceptBindOk]
    have hnd' : (((done ++ [p]) ++ t).map Prod.fst).Nodup := by
      rw [List.append_assoc]
      simpa using hnd
    have := ih (done ++ [p]) hnd' (fun q hq => hat q (by simp [hq]))
    rw [this]
    simp

theorem reshape_ok_spec {ds : XDataset} {dims0 : List String} {ax : String}
    (hne : ds.bands ≠ [])
    (hdims : ∀ p ∈ ds.bands, p.2.dims = dims0)
    (hlen : dims0.length = 3) (hmem : ax ∈ dims0) :
    ∃ A : Attrs, reshape_for_geomedian ds (some ax)
      = Except.ok { reshapeStack ds dims0 ax with attrs := A } := by
  have hd : pyset (ds.bands.map (fun p => p.2.dims)) = [dims0] := by
    apply pyset_const
    · simpa using hne
    · intro x hx
      obtain ⟨p, hp, rfl⟩ := List.mem_map.mp hx
      exact hdims p hp
  unfold reshape_for_geomedian
  rw [hd]
  cases hnd : pyset (ds.bands.map (fun p => p.2.nodata)) with
  | nil =>
    exact ⟨(reshapeStack ds dims0 ax).attrs,
           by simp [reshapeStack, hlen, hmem, hnd]⟩
  | cons v t =>
    cases t with
    | nil =>
      cases v with
      | some v0 =>
        exact ⟨dictInsert (reshapeStack ds dims0 ax).attrs "nodata" v0,
               by simp [reshapeStack, hlen, hmem, hnd]⟩
      | none =>
        exact ⟨(reshapeStack ds dims0 ax).attrs,
               by simp [reshapeStack, hlen, hmem, hnd]⟩
    | cons v2 t2 =>
      exact ⟨(reshapeStack ds dims0 ax).attrs,
             by simp [reshapeStack, hlen, hmem, hnd]⟩

/-- C4: round-trip reconstruction — for every valid labeled collection input
(bands sharing one rank-3 ordered dimension tuple that contains the
reduction axis, two spatial dimensions carrying coordinates of the matching
lengths, distinct names, the external solver returning the documented
(spatial-1, spatial-2, band) shape, eager execution, no mask),
`xr_geomedian` returns a labeled collection with exactly the same band keys
in the same order, the same spatial coordinate values, and each output
band's attributes equal to the corresponding input band's attributes. -/
theorem C4_roundtrip (gm : NpArray → NpArray) (ds : XDataset)
    (ax d1 d2 : String) (dims0 : List String) (shape0 : List Nat)
    (s1 s2 : Nat) (vs1 vs2 : List CVal)
    (hne : ds.bands ≠ [])
    (hdims : ∀ p ∈ ds.bands, p.2.dims = dims0)
    (hshape : ∀ p ∈ ds.bands, p.2.shape = shape0)
    (hlen : dims0.length = 3)
    (hax : ax ∈ dims0)
    (hfilter : dims0.filter (fun x => x ≠ ax) = [d1, d2])
    (hb : "band" ∉ dims0)
    (h12 : d1 ≠ d2)
    (hs1 : sizeAlong dims0 shape0 d1 = s1)
    (hs2 : sizeAlong dims0 shape0 d2 = s2)
    (hc1 : getKey? d1 ds.coords = some vs1) (hl1 : vs1.length = s1)
    (hc2 : getKey? d2 ds.coords = some vs2) (hl2 : vs2.length = s2)
    (hnames : (ds.bands.map Prod.fst).Nodup)
    (hattrs : ∀ p ∈ ds.bands, (p.2.attrs.map Prod.fst).Nodup)
    (hgm : ∀ a : NpArray, (gm a).shape = a.shape.take 3) :
    ∃ dsOut : XDataset,
      (xr_geomedian gm (PyInput.dset ds) (some ax) none).res
        = Except.ok (XOutput.dset dsOut)
      ∧ dsOut.bands = ds.bands.map
          (fun p => (p.1, ⟨[d1, d2], [s1, s2], none, p.2.attrs⟩))
      ∧ getKey? d1 dsOut.coords = getKey? d1 ds.coords
      ∧ getKey? d2 dsOut.coords = getKey? d2 ds.coords := by
  have hd1mem : d1 ∈ dims0 := by
    have h : d1 ∈ dims0.filter (fun x => x ≠ ax) := by rw [hfilter]; simp
    exact (List.mem_filter.mp h).1
  have hd2mem : d2 ∈ dims0 := by
    have h : d2 ∈ dims0.filter (fun x => x ≠ ax) := by rw [hfilter]; simp
    exact (List.mem_filter.mp h).1
  have hd1b : d1 ≠ "band" := fun h => hb (h ▸ hd1mem)
  have hd2b : d2 ≠ "band" := fun h => hb (h ▸ hd2mem)
  have haxb : ax ≠ "band" := fun h => hb (h ▸ hax)
  have hd21 : d2 ≠ d1 := fun h => h12 h.symm
  have hheadD : ds.headDims = dims0 := by
    cases hbs : ds.bands with
    | nil => exact absurd hbs hne
    | cons p0 rest =>
      have h : ds.headDims = p0.2.dims := by
        unfold XDataset.headDims
        rw [hbs]
      rw [h]
      exact hdims p0 (by rw [hbs]; simp)
  have hheadS : ds.headShape = shape0 := by
    cases hbs : ds.bands with
    | nil => exact absurd hbs hne
    | cons p0 rest =>
      have h : ds.headShape = p0.2.shape := by
        unfold XDataset.headShape
        rw [hbs]
      rw [h]
      exact hshape p0 (by rw [hbs]; simp)
  have hstack : reshapeStack ds dims0 ax =
      ⟨[d1, d2, "band", ax],
       dictInsert ds.coords "band" (ds.bands.map (fun p => CVal.s p.1)),
       ds.attrs,
       ArrData.eager ⟨[s1, s2, ds.bands.length, sizeAlong dims0 shape0 ax]⟩⟩ := by
    unfold reshapeStack XDataset.to_array XDataArray.transpose
    rw [hfilter, hheadD, hheadS]
    simp [sizeAlong, ArrData.shape, hd1b, hd2b, haxb, hs1, hs2]
  obtain ⟨A, hre⟩ := reshape_ok_spec hne hdims hlen hax
  rw [hstack] at hre
  dsimp only at hre
  have hnorm : norm_input (PyInput.dset ds) (some ax) =
      Except.ok ⟨some ds,
        some ⟨[d1, d2, "band", ax],
          dictInsert ds.coords "band" (ds.bands.map (fun p => CVal.s p.1)),
          A,
          ArrData.eager ⟨[s1, s2, ds.bands.length, sizeAlong dims0 shape0 ax]⟩⟩,
        ArrData.eager ⟨[s1, s2, ds.bands.length, sizeAlong dims0 shape0 ax]⟩⟩ := by
    simp only [norm_input]
    rw [hre]
    rfl
  have g1 : getKey? d1
      (dictInsert ds.coords "band" (ds.bands.map (fun p => CVal.s p.1)))
      = some vs1 := by
    rw [getKey?_dictInsert_ne _ _ _ _ hd1b]
    exact hc1
  have g2 : getKey? d2
      (dictInsert ds.coords "band" (ds.bands.map (fun p => CVal.s p.1)))
      = some vs2 := by
    rw [getKey?_dictInsert_ne _ _ _ _ hd2b]
    exact hc2
  have g3 : getKey? "band"
      (dictInsert ds.coords "band" (ds.bands.map (fun p => CVal.s p.1)))
      = some (ds.bands.map (fun p => CVal.s p.1)) :=
    getKey?_dictInsert_self _ _ _
  have hbc : buildCoords
      ⟨[d1, d2, "band", ax],
        dictInsert ds.coords "band" (ds.bands.map (fun p => CVal.s p.1)),
        A,
        ArrData.eager ⟨[s1, s2, ds.bands.length, sizeAlong dims0 shape0 ax]⟩⟩
      [d1, d2, "band"]
      = Except.ok [(d1, vs1), (d2, vs2),
                   ("band", ds.bands.map (fun p => CVal.s p.1))] := by
    simp [buildCoords, g1, g2, g3, Except.map]
  have hgmshape :
      (gm ⟨[s1, s2, ds.bands.length, sizeAlong dims0 shape0 ax]⟩).shape
        = [s1, s2, ds.bands.length] := by
    rw [hgm]
    rfl
  have hmk : mkDataArray
      (ArrData.eager (gm ⟨[s1, s2, ds.bands.length, sizeAlong dims0 shape0 ax]⟩))
      [d1, d2, "band"]
      [(d1, vs1), (d2, vs2), ("band", ds.bands.map (fun p => CVal.s p.1))]
      = Except.ok ⟨[d1, d2, "band"],
          [(d1, vs1), (d2, vs2), ("band", ds.bands.map (fun p => CVal.s p.1))],
          [],
          ArrData.eager (gm ⟨[s1, s2, ds.bands.length,
            sizeAlong dims0 shape0 ax]⟩)⟩ := by
    unfold mkDataArray
    rw [if_pos]
    constructor
    · simp [ArrData.shape, hgmshape]
    · intro p hp
      simp only [List.mem_cons, List.not_mem_nil, or_false] at hp
      rcases hp with rfl | rfl | rfl
      · simp [ArrData.shape, hgmshape, sizeAlong, hl1]
      · simp [ArrData.shape, hgmshape, sizeAlong, hd21, hl2]
      · simp [ArrData.shape, hgmshape, sizeAlong, Ne.symm hd1b, Ne.symm hd2b]
  have hbands0 : (ds.bands.map (fun p => CVal.s p.1)).map
      (fun l => (cvKey l, (⟨[d1, d2], [s1, s2], none, []⟩ : XBand)))
      = ds.bands.map (fun p => (p.1, (⟨[d1, d2], [s1, s2], none, []⟩ : XBand))) := by
    rw [List.map_map]
    rfl
  have htd : XDataArray.to_dataset
      ⟨[d1, d2, "band"],
        [(d1, vs1), (d2, vs2), ("band", ds.bands.map (fun p => CVal.s p.1))],
        [],
        ArrData.eager (gm ⟨[s1, s2, ds.bands.length, sizeAlong dims0 shape0 ax]⟩)⟩
      "band"
      = Except.ok ⟨ds.bands.map
            (fun p => (p.1, ⟨[d1, d2], [s1, s2], none, []⟩)),
          [(d1, vs1), (d2, vs2)], []⟩ := by
    unfold XDataArray.to_dataset
    have hget : getKey? "band"
        ([(d1, vs1), (d2, vs2),
          ("band", ds.bands.map (fun p => CVal.s p.1))] : Coords)
        = some (ds.bands.map (fun p => CVal.s p.1)) := by
      simp [getKey?, Ne.symm hd1b, Ne.symm hd2b]
    rw [hget]
    simp [ArrData.shape, hgmshape, hd1b, hd2b, hbands0]
  have hcp : copyBandAttrs ds
      ⟨ds.bands.map (fun p => (p.1, ⟨[d1, d2], [s1, s2], none, []⟩)),
        [(d1, vs1), (d2, vs2)], []⟩
      = Except.ok ⟨ds.bands.map
            (fun p => (p.1, ⟨[d1, d2], [s1, s2], none, p.2.attrs⟩)),
          [(d1, vs1), (d2, vs2)], []⟩ := by
    unfold copyBandAttrs
    have h := copyFold_spec [d1, d2] [s1, s2] [(d1, vs1), (d2, vs2)] []
      [] ds.bands (by simpa using hnames) hattrs
    simpa using h
  refine ⟨⟨ds.bands.map (fun p => (p.1, ⟨[d1, d2], [s1, s2], none, p.2.attrs⟩)),
      [(d1, vs1), (d2, vs2)], []⟩, ?_, rfl, ?_, ?_⟩
  · unfold xr_geomedian xrCore
    rw [hnorm]
    simp [checkWhere, runReducer, rebuildOutput, List.dropLast,
          hbc, hmk, htd, hcp]
  · rw [hc1]
    simp [getKey?]
  · rw [hc2]
    simp [getKey?, hd21]

/-- C4 witness: a concrete two-band collection with spatial coordinates and
per-band attributes round-trips through the call. -/
theorem C4_roundtrip_witness :
    ∃ dsOut : XDataset,
      (xr_geomedian gmConst
          (PyInput.dset
            ⟨[("red", ⟨["y", "x", "time"], [1, 2, 3], none, [("units", CVal.s "m")]⟩),
              ("nir", ⟨["y", "x", "time"], [1, 2, 3], some (CVal.i 0), []⟩)],
             [("y", [CVal.i 0]), ("x", [CVal.i 1, CVal.i 2])], []⟩)
          (some "time") none).res
        = Except.ok (XOutput.dset dsOut)
      ∧ dsOut.bands =
          ([("red", ⟨["y", "x", "time"], [1, 2, 3], none, [("units", CVal.s "m")]⟩),
            ("nir", ⟨["y", "x", "time"], [1, 2, 3], some (CVal.i 0), []⟩)]
           : List (String × XBand)).map
            (fun p => (p.1, ⟨["y", "x"], [1, 2], none, p.2.attrs⟩))
      ∧ getKey? "y" dsOut.coords
          = getKey? "y" ([("y", [CVal.i 0]), ("x", [CVal.i 1, CVal.i 2])] : Coords)
      ∧ getKey? "x" dsOut.coords
          = getKey? "x" ([("y", [CVal.i 0]), ("x", [CVal.i 1, CVal.i 2])] : Coords) :=
  C4_roundtrip gmConst
    ⟨[("red", ⟨["y", "x", "time"], [1, 2, 3], none, [("units", CVal.s "m")]⟩),
      ("nir", ⟨["y", "x", "time"], [1, 2, 3], some (CVal.i 0), []⟩)],
     [("y", [CVal.i 0]), ("x", [CVal.i 1, CVal.i 2])], []⟩
    "time" "y" "x" ["y", "x", "time"] [1, 2, 3] 1 2
    [CVal.i 0] [CVal.i 1, CVal.i 2]
    (by decide) (by decide) (by decide) rfl (by decide) (by decide)
    (by decide) (by decide) rfl rfl rfl rfl rfl rfl
    (by decide) (by decide) (fun a => rfl)
